import Mathlib

/-!
Shallow embedding of the Eyewear Product Management back-office core:
the mongoose schemas (`src/model`), the stock-ledger handlers
(`src/routes/inventory.js`), and the billing handlers (`src/routes/bills.js`).

Conventions of the embedding:
* Mongo `_id` values are `Nat` surrogates.
* JS numbers holding money (`price`, `tax`, `discount`, totals) are `ℚ`;
  stock counts are `Int` (the schema declares `min: 0`, but nothing in the
  handlers forces it, so the type does not bake the invariant in);
  request quantities are `Nat` because the express validators only accept
  integers (`isInt({ min: 1 })` resp. `{ min: 0 }`), with the `min: 1`
  lower bound carried as a separate validity hypothesis.
* `document.save()` is modelled as running the schema's pre-save hook and
  then replacing (or appending) the document in the store; the store is an
  explicit `DB` record threaded through every handler.
* A handler is a function `DB → args → Except Err Out × DB`: the `Except`
  is the HTTP response (error object or payload) and the second component
  is the store after the handler ran, error paths included.
-/

/-- `userSchema.role` enum (`src/model/user.js`). -/
inductive Role
| superadmin
| admin
| user
deriving DecidableEq

/-- The fields of `userSchema` the billing core reads (`src/model/user.js`). -/
structure User where
  id : Nat
  role : Role
  firstName : String
  lastName : String
deriving DecidableEq

/-- The fields of `productSchema` the core reads and writes
    (`src/model/user.js`, product schema part). -/
structure Product where
  id : Nat
  name : String
  price : ℚ
  stockCount : Int
  inStock : Bool
  isActive : Bool
deriving DecidableEq

/-- `inventoryTransaction.type` enum values used by the handlers. -/
inductive TxType
| IN
| OUT
| ADJUSTMENT
deriving DecidableEq

/-- An inventory transaction document as built by the handlers. -/
structure StockTransaction where
  product : Nat
  type : TxType
  quantity : Int
  previousStock : Int
  newStock : Int
  reason : String
  reference : Option String
  notes : Option String
  performedBy : Nat
deriving DecidableEq

/-- `billSchema.status` enum (`src/middleware/auth.js`, bill schema part). -/
inductive BillStatus
| PENDING
| PAID
| OVERDUE
| CANCELLED
deriving DecidableEq

/-- One entry of `billSchema.items`. -/
structure BillLine where
  product : Nat
  quantity : Nat
  unitPrice : ℚ
  totalPrice : ℚ
deriving DecidableEq

/-- A bill document. `billNumber` is `Option` because the field is only
    filled in by the pre-save hook on first persistence. -/
structure Bill where
  id : Nat
  billNumber : Option String
  adminId : Nat
  items : List BillLine
  subtotal : ℚ
  tax : ℚ
  discount : ℚ
  total : ℚ
  status : BillStatus
  dueDate : Nat
  notes : Option String
  generatedBy : Nat
deriving DecidableEq

/-- The persistent store: users, products, the append-only transaction log,
    and the persisted bills (in insertion order, so `bills.length` is what
    `Bill.countDocuments()` returns). -/
structure DB where
  users : List User
  products : List Product
  transactions : List StockTransaction
  bills : List Bill
deriving DecidableEq

/-- `Product.findById`. -/
def findProduct (db : DB) (pid : Nat) : Option Product :=
  db.products.find? (fun p => p.id == pid)

/-- `User.findById`. -/
def findUser (db : DB) (uid : Nat) : Option User :=
  db.users.find? (fun u => u.id == uid)

/-- `Bill.findById`. -/
def findBill (db : DB) (bid : Nat) : Option Bill :=
  db.bills.find? (fun b => b.id == bid)

/-- `productSchema.pre('save')` (`src/model/user.js` lines 223-227):
    recompute `inStock` from `stockCount` on every save. -/
def saveProduct (p : Product) : Product :=
  { p with inStock := decide (0 < p.stockCount) }

/-- Persisting an existing product document: replace the stored document
    with the same `_id`. -/
def putProduct (db : DB) (p : Product) : DB :=
  { db with products := db.products.map (fun q => if q.id == p.id then p else q) }

/-- Persisting an existing bill document: replace the stored document with
    the same `_id`. -/
def putBill (db : DB) (b : Bill) : DB :=
  { db with bills := db.bills.map (fun c => if c.id == b.id then b else c) }

/-- The decimal rendering of the template literal
    `` `BILL-${Date.now()}-${count + 1}` `` from `billSchema.pre('save')`
    (`src/middleware/auth.js` lines 131-137): `now` is the millisecond epoch
    timestamp, `count` the number of already-persisted bills. -/
def billNumberString (now count : Nat) : String :=
  "BILL-" ++ Nat.repr now ++ "-" ++ Nat.repr (count + 1)

/-- `billSchema.pre('save')`: if the bill has no number yet, derive one from
    the clock and the bill count; an existing number is left untouched. -/
def assignBillNumber (now count : Nat) (b : Bill) : Bill :=
  match b.billNumber with
  | none => { b with billNumber := some (billNumberString now count) }
  | some _ => b

/-- `bill.save()` for a new bill: run the pre-save hook, with `count` read by
    `Bill.countDocuments()`, then insert the document. -/
def saveBill (now : Nat) (db : DB) (b : Bill) : DB :=
  { db with bills := db.bills ++ [assignBillNumber now db.bills.length b] }

/-- The error responses of the inventory handlers. -/
inductive InvErr
| productNotFound
deriving DecidableEq

/-- POST `/inventory/add-stock` (`src/routes/inventory.js` lines 55-106),
    after validation. Returns the reported `newStock`. -/
def addStock (db : DB) (productId quantity : Nat) (reason : String)
    (reference notes : Option String) (actor : Nat) : Except InvErr Int × DB :=
  match findProduct db productId with
  | none => (.error .productNotFound, db)
  | some product =>
    let previousStock := product.stockCount
    let newStock := previousStock + (quantity : Int)
    let db1 := putProduct db (saveProduct { product with stockCount := newStock })
    let tx : StockTransaction :=
      { product := productId, type := .IN, quantity := (quantity : Int)
        previousStock := previousStock, newStock := newStock
        reason := reason, reference := reference, notes := notes
        performedBy := actor }
    (.ok newStock, { db1 with transactions := db1.transactions ++ [tx] })

/-- POST `/inventory/remove-stock` (`src/routes/inventory.js` lines 109-160),
    after validation: `newStock = Math.max(0, previousStock - quantity)`. -/
def removeStock (db : DB) (productId quantity : Nat) (reason : String)
    (reference notes : Option String) (actor : Nat) : Except InvErr Int × DB :=
  match findProduct db productId with
  | none => (.error .productNotFound, db)
  | some product =>
    let previousStock := product.stockCount
    let newStock := max 0 (previousStock - (quantity : Int))
    let db1 := putProduct db (saveProduct { product with stockCount := newStock })
    let tx : StockTransaction :=
      { product := productId, type := .OUT, quantity := (quantity : Int)
        previousStock := previousStock, newStock := newStock
        reason := reason, reference := reference, notes := notes
        performedBy := actor }
    (.ok newStock, { db1 with transactions := db1.transactions ++ [tx] })

/-- POST `/inventory/adjust-stock` (`src/routes/inventory.js` lines 163-214),
    after validation: stock is set to the absolute target `newQuantity` and
    the audit record carries `Math.abs(newQuantity - previousStock)`. -/
def adjustStock (db : DB) (productId newQuantity : Nat) (reason : String)
    (reference notes : Option String) (actor : Nat) : Except InvErr Int × DB :=
  match findProduct db productId with
  | none => (.error .productNotFound, db)
  | some product =>
    let previousStock := product.stockCount
    let adjustmentQuantity := |(newQuantity : Int) - previousStock|
    let db1 := putProduct db (saveProduct { product with stockCount := (newQuantity : Int) })
    let tx : StockTransaction :=
      { product := productId, type := .ADJUSTMENT, quantity := adjustmentQuantity
        previousStock := previousStock, newStock := (newQuantity : Int)
        reason := reason, reference := reference, notes := notes
        performedBy := actor }
    (.ok (newQuantity : Int), { db1 with transactions := db1.transactions ++ [tx] })

/-- The error responses of POST `/bills/generate`. -/
inductive BillErr
| adminNotFound
| productNotFound (productId : Nat)
| insufficientStock (name : String) (available : Int) (requested : Nat)
deriving DecidableEq

/-- One entry of the request body's `items` array. -/
structure ReqItem where
  product : Nat
  quantity : Nat
deriving DecidableEq

/-- The bill line the loop pushes onto `processedItems` for one request item
    (`src/routes/bills.js` lines 128-136): the unit price is snapshotted from
    the product, `itemTotal = product.price * item.quantity`. -/
def lineOf (product : Product) (qty : Nat) : BillLine :=
  { product := product.id, quantity := qty, unitPrice := product.price
    totalPrice := product.price * (qty : ℚ) }

/-- The debited product the loop saves (`src/routes/bills.js` lines 138-140):
    `product.stockCount -= item.quantity`, then `product.save()` runs the
    product pre-save hook. -/
def debitedOf (product : Product) (qty : Nat) : Product :=
  saveProduct { product with stockCount := product.stockCount - (qty : Int) }

/-- The inventory transaction the loop records for one debit
    (`src/routes/bills.js` lines 142-153): the snapshots are reconstructed
    from the already-mutated stock count. -/
def txOf (admin : User) (actor : Nat) (product : Product) (qty : Nat) :
    StockTransaction :=
  { product := product.id, type := .OUT, quantity := (qty : Int)
    previousStock := (debitedOf product qty).stockCount + (qty : Int)
    newStock := (debitedOf product qty).stockCount
    reason := "Admin stock allocation"
    reference := some ("Admin: " ++ admin.firstName ++ " " ++ admin.lastName)
    notes := none, performedBy := actor }

/-- One successful iteration's effect on the store: persist the debited
    product and append the OUT transaction. -/
def debitLine (admin : User) (actor : Nat) (db : DB) (product : Product)
    (qty : Nat) : DB :=
  let db1 := putProduct db (debitedOf product qty)
  { db1 with transactions := db1.transactions ++ [txOf admin actor product qty] }

/-- The items loop of POST `/bills/generate` (`src/routes/bills.js` lines
    115-154): per line, resolve the product, check availability, snapshot the
    price, debit the stock and append an OUT transaction — mutating the store
    as it goes, so a failing line returns with the earlier lines' debits
    already persisted. The accumulated subtotal is returned alongside the
    processed lines (rational addition is associative, so accumulating from
    the right yields the same sum the JS `subtotal += itemTotal` builds). -/
def processItems (admin : User) (actor : Nat) :
    DB → List ReqItem → Except BillErr (List BillLine × ℚ) × DB
  | db, [] => (.ok ([], 0), db)
  | db, item :: rest =>
    match findProduct db item.product with
    | none => (.error (.productNotFound item.product), db)
    | some product =>
      if product.stockCount < (item.quantity : Int) then
        (.error (.insufficientStock product.name product.stockCount item.quantity), db)
      else
        match processItems admin actor (debitLine admin actor db product item.quantity) rest with
        | (.ok (lines, sub), db3) =>
            (.ok (lineOf product item.quantity :: lines,
                  (lineOf product item.quantity).totalPrice + sub), db3)
        | (.error e, db3) => (.error e, db3)

/-- The bill document POST `/bills/generate` constructs before saving
    (`src/routes/bills.js` lines 156-169): `total = subtotal + tax - discount`,
    status left to the schema default PENDING, no bill number yet; `count` is
    the surrogate `_id` drawn from the store. -/
def composeBill (count adminId : Nat) (processedItems : List BillLine)
    (subtotal tax discount : ℚ) (dueDate : Nat) (notes : Option String)
    (actor : Nat) : Bill :=
  { id := count, billNumber := none, adminId := adminId
    items := processedItems, subtotal := subtotal, tax := tax
    discount := discount, total := subtotal + tax - discount
    status := .PENDING, dueDate := dueDate, notes := notes
    generatedBy := actor }

/-- POST `/bills/generate` (`src/routes/bills.js` lines 88-184), after
    validation: resolve the admin, run the items loop, then build and persist
    the bill. `now` is the `Date.now()` value observed by the pre-save hook;
    the fresh bill's surrogate `_id` is the current bill count. -/
def generateBill (db : DB) (now adminId : Nat) (items : List ReqItem)
    (dueDate : Nat) (tax discount : ℚ) (notes : Option String) (actor : Nat) :
    Except BillErr Bill × DB :=
  match findUser db adminId with
  | none => (.error .adminNotFound, db)
  | some admin =>
    if admin.role ≠ .admin then (.error .adminNotFound, db)
    else
      match processItems admin actor db items with
      | (.error e, db1) => (.error e, db1)
      | (.ok (processedItems, subtotal), db1) =>
        let saved := assignBillNumber now db1.bills.length
          (composeBill db1.bills.length adminId processedItems subtotal tax
            discount dueDate notes actor)
        (.ok saved, { db1 with bills := db1.bills ++ [saved] })

/-- The error response of PATCH `/bills/:id/status`. -/
inductive StatusErr
| billNotFound
deriving DecidableEq

/-- PATCH `/bills/:id/status` (`src/routes/bills.js` lines 187-214): the
    requested status has already passed the `isIn` validator (our `BillStatus`
    is exactly that enum); the bill's status is overwritten unconditionally
    and the document saved, which reruns the bill pre-save hook. -/
def updateBillStatus (db : DB) (billId : Nat) (status : BillStatus) (now : Nat) :
    Except StatusErr Bill × DB :=
  match findBill db billId with
  | none => (.error .billNotFound, db)
  | some bill =>
    let updated := assignBillNumber now db.bills.length { bill with status := status }
    (.ok updated, putBill db updated)

/-- The operations of the core, for statements quantifying over sequences. -/
inductive Op
| addStock (productId quantity : Nat) (reason : String)
    (reference notes : Option String) (actor : Nat)
| removeStock (productId quantity : Nat) (reason : String)
    (reference notes : Option String) (actor : Nat)
| adjustStock (productId newQuantity : Nat) (reason : String)
    (reference notes : Option String) (actor : Nat)
| generateBill (now adminId : Nat) (items : List ReqItem) (dueDate : Nat)
    (tax discount : ℚ) (notes : Option String) (actor : Nat)
| updateBillStatus (billId : Nat) (status : BillStatus) (now : Nat)

/-- The store after running one operation (the handler's response dropped). -/
def step (db : DB) : Op → DB
  | .addStock pid q r ref n a => (addStock db pid q r ref n a).2
  | .removeStock pid q r ref n a => (removeStock db pid q r ref n a).2
  | .adjustStock pid q r ref n a => (adjustStock db pid q r ref n a).2
  | .generateBill now aid its due tax disc n a =>
      (generateBill db now aid its due tax disc n a).2
  | .updateBillStatus bid s now => (updateBillStatus db bid s now).2

/-- The constraints the express validators place on each operation's body:
    `quantity` is `isInt({ min: 1 })` for add/remove and for every bill item,
    `newQuantity` is `isInt({ min: 0 })` (carried by the `Nat` type),
    `items` is `isArray({ min: 1 })`, and `tax`/`discount` are
    `isFloat({ min: 0 })`. -/
def Op.validated : Op → Prop
  | .addStock _ q _ _ _ _ => 1 ≤ q
  | .removeStock _ q _ _ _ _ => 1 ≤ q
  | .adjustStock _ _ _ _ _ _ => True
  | .generateBill _ _ items _ tax discount _ _ =>
      items ≠ [] ∧ (∀ it ∈ items, 1 ≤ it.quantity) ∧ 0 ≤ tax ∧ 0 ≤ discount
  | .updateBillStatus _ _ _ => True

/-- The three plain stock-ledger operations (Increase/Decrease/Adjust). -/
def Op.isStockOp : Op → Prop
  | .addStock _ _ _ _ _ _ => True
  | .removeStock _ _ _ _ _ _ => True
  | .adjustStock _ _ _ _ _ _ => True
  | _ => False

/-- Running a whole sequence of operations. -/
def run (db : DB) : List Op → DB
  | [] => db
  | op :: rest => run (step db op) rest

/-- Every stored product has a non-negative stock count. -/
def wfStocks (db : DB) : Prop :=
  ∀ p ∈ db.products, 0 ≤ p.stockCount

/-- The bookkeeping relation every transaction the handlers emit satisfies:
    IN adds the quantity, OUT subtracts it clamped at zero, ADJUSTMENT records
    the absolute delta, and both stock snapshots are non-negative. -/
def txOk (tx : StockTransaction) : Prop :=
  (tx.type = .IN → tx.newStock = tx.previousStock + tx.quantity) ∧
  (tx.type = .OUT → tx.newStock = max 0 (tx.previousStock - tx.quantity)) ∧
  (tx.type = .ADJUSTMENT → tx.quantity = |tx.newStock - tx.previousStock|) ∧
  0 ≤ tx.previousStock ∧ 0 ≤ tx.newStock

/-- Interleaving of two concurrent `bill.save()` calls in which both pre-save
    hooks run their awaited `Bill.countDocuments()` read before either insert
    completes (the count query is a suspension point of the async hook), so
    both observe the same count. -/
def concurrentSaves (db : DB) (now1 now2 : Nat) (b1 b2 : Bill) : DB :=
  let count := db.bills.length
  { db with
    bills := db.bills ++ [assignBillNumber now1 count b1, assignBillNumber now2 count b2] }

/-- Serialized `bill.save()` calls: each save completes (hook and insert)
    before the next one reads the bill count. -/
def seqSaves (db : DB) : List (Nat × Bill) → DB
  | [] => db
  | (now, b) :: rest => seqSaves (saveBill now db b) rest

/-! ### Concrete fixtures used by witnesses and counterexamples -/

/-- A target admin. -/
def adminAda : User := { id := 1, role := .admin, firstName := "Ada", lastName := "L" }

/-- A product with five units in stock at price 10 (the spec's scenario P). -/
def lens5 : Product :=
  { id := 1, name := "P1", price := 10, stockCount := 5, inStock := true, isActive := true }

/-- A product that is out of stock. -/
def frameEmpty : Product :=
  { id := 2, name := "P2", price := 3, stockCount := 0, inStock := false, isActive := true }

/-- A store holding the two products, one admin, no transactions, no bills. -/
def dbInit : DB :=
  { users := [adminAda], products := [lens5, frameEmpty], transactions := [], bills := [] }

/-- A bill already persisted with status PAID. -/
def billPaid : Bill :=
  { id := 0, billNumber := some "BILL-5-1", adminId := 1, items := [], subtotal := 0
    tax := 0, discount := 0, total := 0, status := .PAID, dueDate := 7, notes := none
    generatedBy := 0 }

/-- A store holding one PAID bill. -/
def dbPaid : DB := { users := [adminAda], products := [], transactions := [], bills := [billPaid] }

/-- A fresh, not yet persisted bill (no bill number). -/
def billFresh : Bill :=
  { id := 50, billNumber := none, adminId := 1, items := [], subtotal := 0
    tax := 0, discount := 0, total := 0, status := .PENDING, dueDate := 7, notes := none
    generatedBy := 0 }

/-- A second fresh bill. -/
def billFresh2 : Bill := { billFresh with id := 51 }

/-! ### Store and helper lemmas -/

theorem mem_putProduct {db : DB} {x p : Product}
    (h : p ∈ (putProduct db x).products) : p = x ∨ p ∈ db.products := by
  rcases List.mem_map.1 h with ⟨q, hq, hqe⟩
  by_cases hc : q.id == x.id
  · simp only [hc, if_true] at hqe
    exact .inl hqe.symm
  · simp only [hc] at hqe
    simp only [Bool.false_eq_true, if_false] at hqe
    exact .inr (hqe ▸ hq)

theorem wfStocks_putProduct {db : DB} {x : Product}
    (hwf : wfStocks db) (hx : 0 ≤ x.stockCount) : wfStocks (putProduct db x) := by
  intro p hp
  rcases mem_putProduct hp with rfl | hp'
  · exact hx
  · exact hwf p hp'

theorem findProduct_mem {db : DB} {pid : Nat} {p : Product}
    (h : findProduct db pid = some p) : p ∈ db.products :=
  List.mem_of_find?_eq_some h

theorem findProduct_id {db : DB} {pid : Nat} {p : Product}
    (h : findProduct db pid = some p) : p.id = pid := by
  have := List.find?_some h
  simpa using this

theorem findUser_mem {db : DB} {uid : Nat} {u : User}
    (h : findUser db uid = some u) : u ∈ db.users :=
  List.mem_of_find?_eq_some h

theorem saveProduct_id (p : Product) : (saveProduct p).id = p.id := rfl

theorem saveProduct_stockCount (p : Product) :
    (saveProduct p).stockCount = p.stockCount := rfl

theorem saveProduct_inStock (p : Product) :
    (saveProduct p).inStock = decide (0 < p.stockCount) := rfl

theorem assignBillNumber_none {b : Bill} (hb : b.billNumber = none) (now c : Nat) :
    assignBillNumber now c b = { b with billNumber := some (billNumberString now c) } := by
  simp [assignBillNumber, hb]

theorem assignBillNumber_some {b : Bill} {s : String} (hb : b.billNumber = some s)
    (now c : Nat) : assignBillNumber now c b = b := by
  simp [assignBillNumber, hb]

theorem assignBillNumber_status (now c : Nat) (b : Bill) :
    (assignBillNumber now c b).status = b.status := by
  cases hb : b.billNumber <;> simp [assignBillNumber, hb]

theorem assignBillNumber_items (now c : Nat) (b : Bill) :
    (assignBillNumber now c b).items = b.items := by
  cases hb : b.billNumber <;> simp [assignBillNumber, hb]

theorem assignBillNumber_subtotal (now c : Nat) (b : Bill) :
    (assignBillNumber now c b).subtotal = b.subtotal := by
  cases hb : b.billNumber <;> simp [assignBillNumber, hb]

theorem assignBillNumber_tax (now c : Nat) (b : Bill) :
    (assignBillNumber now c b).tax = b.tax := by
  cases hb : b.billNumber <;> simp [assignBillNumber, hb]

theorem assignBillNumber_discount (now c : Nat) (b : Bill) :
    (assignBillNumber now c b).discount = b.discount := by
  cases hb : b.billNumber <;> simp [assignBillNumber, hb]

theorem assignBillNumber_total (now c : Nat) (b : Bill) :
    (assignBillNumber now c b).total = b.total := by
  cases hb : b.billNumber <;> simp [assignBillNumber, hb]

theorem assignBillNumber_billNumber_of_none {b : Bill} (hb : b.billNumber = none)
    (now c : Nat) :
    (assignBillNumber now c b).billNumber = some (billNumberString now c) := by
  simp [assignBillNumber_none hb]

/-! ### Equation lemmas for the items loop and for bill generation -/

theorem processItems_nil (admin : User) (actor : Nat) (db : DB) :
    processItems admin actor db [] = (.ok ([], 0), db) := rfl

theorem processItems_cons_notFound (admin : User) (actor : Nat) (db : DB)
    (item : ReqItem) (rest : List ReqItem)
    (hf : findProduct db item.product = none) :
    processItems admin actor db (item :: rest) =
      (.error (.productNotFound item.product), db) := by
  simp [processItems, hf]

theorem processItems_cons_short (admin : User) (actor : Nat) (db : DB)
    (item : ReqItem) (product : Product) (rest : List ReqItem)
    (hf : findProduct db item.product = some product)
    (hlt : product.stockCount < (item.quantity : Int)) :
    processItems admin actor db (item :: rest) =
      (.error (.insufficientStock product.name product.stockCount item.quantity), db) := by
  simp [processItems, hf, hlt]

theorem processItems_cons_go (admin : User) (actor : Nat) (db : DB)
    (item : ReqItem) (product : Product) (rest : List ReqItem)
    (hf : findProduct db item.product = some product)
    (hlt : ¬ product.stockCount < (item.quantity : Int)) :
    processItems admin actor db (item :: rest) =
      ((processItems admin actor (debitLine admin actor db product item.quantity) rest).1.map
        (fun r => (lineOf product item.quantity :: r.1,
                   (lineOf product item.quantity).totalPrice + r.2)),
       (processItems admin actor (debitLine admin actor db product item.quantity) rest).2) := by
  rcases hrec : processItems admin actor (debitLine admin actor db product item.quantity) rest
    with ⟨res, db3⟩
  rcases res with e | ⟨lines, sub⟩ <;> simp [processItems, hf, hlt, hrec, Except.map]

theorem generateBill_noUser (db : DB) (now adminId : Nat) (items : List ReqItem)
    (dueDate : Nat) (tax discount : ℚ) (notes : Option String) (actor : Nat)
    (h : findUser db adminId = none) :
    generateBill db now adminId items dueDate tax discount notes actor =
      (.error .adminNotFound, db) := by
  simp [generateBill, h]

theorem generateBill_badRole (db : DB) (now adminId : Nat) (admin : User)
    (items : List ReqItem) (dueDate : Nat) (tax discount : ℚ)
    (notes : Option String) (actor : Nat)
    (h : findUser db adminId = some admin) (hr : ¬ admin.role = .admin) :
    generateBill db now adminId items dueDate tax discount notes actor =
      (.error .adminNotFound, db) := by
  simp [generateBill, h, hr]

theorem generateBill_err_eq (db db1 : DB) (now adminId : Nat) (admin : User)
    (items : List ReqItem) (e : BillErr) (actor : Nat)
    (dueDate : Nat) (tax discount : ℚ) (notes : Option String)
    (h : findUser db adminId = some admin) (hr : admin.role = .admin)
    (hpi : processItems admin actor db items = (.error e, db1)) :
    generateBill db now adminId items dueDate tax discount notes actor =
      (.error e, db1) := by
  simp [generateBill, h, hr, hpi]

theorem generateBill_ok_eq (db db1 : DB) (now adminId : Nat) (admin : User)
    (items : List ReqItem) (lines : List BillLine) (subtotal : ℚ) (actor : Nat)
    (dueDate : Nat) (tax discount : ℚ) (notes : Option String)
    (h : findUser db adminId = some admin) (hr : admin.role = .admin)
    (hpi : processItems admin actor db items = (.ok (lines, subtotal), db1)) :
    generateBill db now adminId items dueDate tax discount notes actor =
      (.ok (assignBillNumber now db1.bills.length
              (composeBill db1.bills.length adminId lines subtotal tax discount
                dueDate notes actor)),
       { db1 with bills := db1.bills ++
          [assignBillNumber now db1.bills.length
            (composeBill db1.bills.length adminId lines subtotal tax discount
              dueDate notes actor)] }) := by
  simp [generateBill, h, hr, hpi]

theorem debitLine_bills (admin : User) (actor : Nat) (db : DB) (product : Product)
    (qty : Nat) : (debitLine admin actor db product qty).bills = db.bills := rfl

theorem debitLine_users (admin : User) (actor : Nat) (db : DB) (product : Product)
    (qty : Nat) : (debitLine admin actor db product qty).users = db.users := rfl

theorem debitLine_transactions (admin : User) (actor : Nat) (db : DB)
    (product : Product) (qty : Nat) :
    (debitLine admin actor db product qty).transactions =
      db.transactions ++ [txOf admin actor product qty] := rfl

theorem debitLine_products (admin : User) (actor : Nat) (db : DB)
    (product : Product) (qty : Nat) :
    (debitLine admin actor db product qty).products =
      (putProduct db (debitedOf product qty)).products := rfl

theorem debitedOf_stockCount (product : Product) (qty : Nat) :
    (debitedOf product qty).stockCount = product.stockCount - (qty : Int) := rfl

theorem txOk_txOf {product : Product} {qty : Nat} (admin : User) (actor : Nat)
    (hprev : 0 ≤ product.stockCount) (hq : (qty : Int) ≤ product.stockCount) :
    txOk (txOf admin actor product qty) := by
  have hnn : 0 ≤ product.stockCount - (qty : Int) := by omega
  unfold txOk
  refine ⟨?_, ?_, ?_, ?_, ?_⟩
  · intro h
    simp [txOf] at h
  · intro _
    show (debitedOf product qty).stockCount =
      max 0 ((debitedOf product qty).stockCount + (qty : Int) - (qty : Int))
    rw [debitedOf_stockCount, Int.add_sub_cancel, max_eq_right hnn]
  · intro h
    simp [txOf] at h
  · show 0 ≤ (debitedOf product qty).stockCount + (qty : Int)
    rw [debitedOf_stockCount]
    omega
  · show 0 ≤ (debitedOf product qty).stockCount
    rw [debitedOf_stockCount]
    exact hnn

theorem debitLine_wf {db : DB} {product : Product} {qty : Nat}
    (admin : User) (actor : Nat) (hwf : wfStocks db)
    (hq : (qty : Int) ≤ product.stockCount) :
    wfStocks (debitLine admin actor db product qty) := by
  have hx : 0 ≤ (debitedOf product qty).stockCount := by
    rw [debitedOf_stockCount]; omega
  exact fun p hp => wfStocks_putProduct hwf hx p hp

/-- Everything the rest of the development needs to know about how the items
    loop transforms the store, in one induction: users and bills untouched,
    every product it writes went through the product pre-save hook, stock
    non-negativity is preserved, and every transaction it appends satisfies
    the ledger bookkeeping relation. -/
theorem processItems_state (admin : User) (actor : Nat) (items : List ReqItem) :
    ∀ db : DB,
      (processItems admin actor db items).2.users = db.users ∧
      (processItems admin actor db items).2.bills = db.bills ∧
      (∀ p ∈ (processItems admin actor db items).2.products,
        p ∈ db.products ∨ p.inStock = decide (0 < p.stockCount)) ∧
      (wfStocks db → wfStocks (processItems admin actor db items).2) ∧
      (wfStocks db → ∀ tx ∈ (processItems admin actor db items).2.transactions,
        tx ∈ db.transactions ∨ txOk tx) := by
  induction items with
  | nil =>
    intro db
    exact ⟨rfl, rfl, fun p hp => .inl hp, fun h => h, fun _ tx htx => .inl htx⟩
  | cons item rest ih =>
    intro db
    rcases hf : findProduct db item.product with _ | product
    · rw [processItems_cons_notFound admin actor db item rest hf]
      exact ⟨rfl, rfl, fun p hp => .inl hp, fun h => h, fun _ tx htx => .inl htx⟩
    · by_cases hlt : product.stockCount < (item.quantity : Int)
      · rw [processItems_cons_short admin actor db item product rest hf hlt]
        exact ⟨rfl, rfl, fun p hp => .inl hp, fun h => h, fun _ tx htx => .inl htx⟩
      · rw [processItems_cons_go admin actor db item product rest hf hlt]
        have hqle : (item.quantity : Int) ≤ product.stockCount := le_of_not_lt hlt
        obtain ⟨ihu, ihb, ihp, ihwf, ihtx⟩ :=
          ih (debitLine admin actor db product item.quantity)
        refine ⟨by rw [ihu, debitLine_users], by rw [ihb, debitLine_bills], ?_, ?_, ?_⟩
        · intro p hp
          rcases ihp p hp with hp' | hflag
          · rw [debitLine_products] at hp'
            rcases mem_putProduct hp' with rfl | hmem
            · exact .inr rfl
            · exact .inl hmem
          · exact .inr hflag
        · intro hwf
          exact ihwf (debitLine_wf admin actor hwf hqle)
        · intro hwf tx htx
          have hprev : 0 ≤ product.stockCount := hwf product (findProduct_mem hf)
          rcases ihtx (debitLine_wf admin actor hwf hqle) tx htx with htx' | hok
          · rw [debitLine_transactions] at htx'
            rcases List.mem_append.1 htx' with h | h
            · exact .inl h
            · rcases List.mem_singleton.1 h with rfl
              exact .inr (txOk_txOf admin actor hprev hqle)
          · exact .inr hok

/-- The identification data of the product a lookup returns: `_id`, name and
    unit price (the fields the bill composer snapshots). -/
def prodView (db : DB) (pid : Nat) : Option (Nat × String × ℚ) :=
  (findProduct db pid).map (fun p => (p.id, p.name, p.price))

theorem debitedOf_id (product : Product) (qty : Nat) :
    (debitedOf product qty).id = product.id := rfl

theorem debitedOf_name (product : Product) (qty : Nat) :
    (debitedOf product qty).name = product.name := rfl

theorem debitedOf_price (product : Product) (qty : Nat) :
    (debitedOf product qty).price = product.price := rfl

theorem prodView_debitLine {db : DB} {product : Product}
    (admin : User) (actor : Nat) (qty : Nat)
    (hfp : findProduct db product.id = some product) (pid : Nat) :
    prodView (debitLine admin actor db product qty) pid = prodView db pid := by
  have hgid : ∀ q : Product,
      ((if q.id == (debitedOf product qty).id then debitedOf product qty else q).id == pid)
        = (q.id == pid) := by
    intro q
    by_cases hc : q.id == (debitedOf product qty).id
    · have hqid : q.id = (debitedOf product qty).id := by simpa using hc
      simp [hc, ← hqid]
    · simp [hc]
  have hfind : findProduct (debitLine admin actor db product qty) pid =
      Option.map (fun q => if q.id == (debitedOf product qty).id then debitedOf product qty else q)
        (findProduct db pid) := by
    show List.find? (fun p => p.id == pid)
        (db.products.map
          (fun q => if q.id == (debitedOf product qty).id then debitedOf product qty else q)) = _
    rw [List.find?_map]
    have hpred : ((fun p : Product => p.id == pid) ∘
        (fun q => if q.id == (debitedOf product qty).id then debitedOf product qty else q))
        = (fun q : Product => q.id == pid) := by
      funext q
      simpa [Function.comp] using hgid q
    rw [hpred]
    rfl
  rcases hq0 : findProduct db pid with _ | q0
  · simp [prodView, hfind, hq0]
  · by_cases hc : q0.id == (debitedOf product qty).id
    · have hq0id : q0.id = (debitedOf product qty).id := by simpa using hc
      have hpid : q0.id = pid := by simpa using List.find?_some hq0
      have hpid2 : pid = product.id := by rw [← hpid, hq0id, debitedOf_id]
      have hq0p : q0 = product := by
        have h2 := hq0
        rw [hpid2, hfp] at h2
        exact (Option.some.inj h2).symm
      subst hq0p
      simp [prodView, hfind, hq0, hc, debitedOf_id, debitedOf_name, debitedOf_price]
    · have hne : q0.id ≠ (debitedOf product qty).id := by simpa using hc
      simp [prodView, hfind, hq0, hc, hne]

/-- The successful items loop returns exactly the priced lines the claim
    describes: each line's total is quantity × snapshotted unit price, the
    unit price is the price the product had in the store the request started
    from, and the accumulated subtotal is the sum of the line totals. -/
theorem processItems_ok_spec (admin : User) (actor : Nat) (items : List ReqItem) :
    ∀ (db : DB) (lines : List BillLine) (sub : ℚ) (db1 : DB),
      processItems admin actor db items = (.ok (lines, sub), db1) →
      (∀ line ∈ lines,
        line.totalPrice = line.unitPrice * (line.quantity : ℚ) ∧
        ∃ p, findProduct db line.product = some p ∧ line.unitPrice = p.price) ∧
      sub = (lines.map BillLine.totalPrice).sum := by
  induction items with
  | nil =>
    intro db lines sub db1 h
    rw [processItems_nil] at h
    simp only [Prod.mk.injEq, Except.ok.injEq] at h
    obtain ⟨⟨rfl, rfl⟩, rfl⟩ := h
    exact ⟨fun line hl => absurd hl (List.not_mem_nil line), by simp⟩
  | cons item rest ih =>
    intro db lines sub db1 h
    rcases hf : findProduct db item.product with _ | product
    · rw [processItems_cons_notFound admin actor db item rest hf] at h
      simp at h
    · by_cases hlt : product.stockCount < (item.quantity : Int)
      · rw [processItems_cons_short admin actor db item product rest hf hlt] at h
        simp at h
      · rw [processItems_cons_go admin actor db item product rest hf hlt] at h
        rcases hrec : processItems admin actor (debitLine admin actor db product item.quantity) rest
          with ⟨res, db3⟩
        rw [hrec] at h
        rcases res with e | ⟨lines2, sub2⟩
        · simp [Except.map] at h
        · simp only [Except.map, Prod.mk.injEq, Except.ok.injEq] at h
          obtain ⟨⟨rfl, rfl⟩, rfl⟩ := h
          obtain ⟨ihl, ihsub⟩ :=
            ih (debitLine admin actor db product item.quantity) lines2 sub2 db3 hrec
          have hfp : findProduct db product.id = some product := by
            rw [findProduct_id hf]; exact hf
          constructor
          · intro line hl
            rcases List.mem_cons.1 hl with rfl | hl2
            · refine ⟨rfl, product, ?_, rfl⟩
              show findProduct db product.id = some product
              exact hfp
            · obtain ⟨hline, p', hp', hprice⟩ := ihl line hl2
              refine ⟨hline, ?_⟩
              have hview := prodView_debitLine admin actor item.quantity hfp line.product
              have hv2 : prodView db line.product = some (p'.id, p'.name, p'.price) := by
                rw [← hview]
                simp [prodView, hp']
              rcases hfind2 : findProduct db line.product with _ | p
              · simp [prodView, hfind2] at hv2
              · simp [prodView, hfind2] at hv2
                exact ⟨p, rfl, by rw [hprice, ← hv2.2.2]⟩
          · rw [ihsub]
            simp

/-! ### Claim C5: Decrease (remove-stock) never fails on insufficient stock -/

/-- Claim C5: for every product and positive integer quantity, remove-stock
    never fails on insufficient stock — it sets the product's stock to
    `max 0 (previousStock - quantity)`, persists the product through the
    pre-save hook, appends exactly one OUT transaction, and returns the new
    stock count. -/
theorem removeStock_never_insufficient (db : DB) (productId quantity : Nat)
    (reason : String) (reference extraNotes : Option String) (actor : Nat)
    (p : Product) (hq : 1 ≤ quantity) (hp : findProduct db productId = some p) :
    removeStock db productId quantity reason reference extraNotes actor =
      (.ok (max 0 (p.stockCount - (quantity : Int))),
        { db with
          products := db.products.map (fun q =>
            if q.id == p.id then
              saveProduct { p with stockCount := max 0 (p.stockCount - (quantity : Int)) }
            else q)
          transactions := db.transactions ++
            [{ product := productId, type := .OUT, quantity := (quantity : Int)
               previousStock := p.stockCount
               newStock := max 0 (p.stockCount - (quantity : Int))
               reason := reason, reference := reference, notes := extraNotes
               performedBy := actor }] }) := by
  simp [removeStock, hp, putProduct, saveProduct_id]

/-- Witness for C5 at a concrete store: removing 7 units from a product
    holding 5 succeeds and clamps the stock at zero. -/
theorem removeStock_never_insufficient_witness :
    1 ≤ 7 ∧ findProduct dbInit 1 = some lens5 ∧
    removeStock dbInit 1 7 "shrinkage" none none 0 =
      (.ok (max 0 (lens5.stockCount - (7 : Int))),
        { dbInit with
          products := dbInit.products.map (fun q =>
            if q.id == lens5.id then
              saveProduct { lens5 with stockCount := max 0 (lens5.stockCount - (7 : Int)) }
            else q)
          transactions := dbInit.transactions ++
            [{ product := 1, type := .OUT, quantity := (7 : Int)
               previousStock := lens5.stockCount
               newStock := max 0 (lens5.stockCount - (7 : Int))
               reason := "shrinkage", reference := none, notes := none
               performedBy := 0 }] }) :=
  ⟨by decide, rfl,
    removeStock_never_insufficient dbInit 1 7 "shrinkage" none none 0 lens5 (by decide) rfl⟩

/-! ### Claim C2: a single-line GenerateBill with too large a quantity fails
    cleanly -/

/-- Claim C2: a GenerateBill request with a single line whose quantity exceeds
    the product's stock fails with InsufficientStock carrying the product
    name, available stock and requested quantity, and leaves the whole store
    unchanged — no debit, no transaction, no bill. -/
theorem generateBill_single_line_insufficient (db : DB) (now adminId pid qty : Nat)
    (dueDate : Nat) (tax discount : ℚ) (extraNotes : Option String) (actor : Nat)
    (admin : User) (p : Product)
    (hA : findUser db adminId = some admin) (hrole : admin.role = .admin)
    (hp : findProduct db pid = some p) (hq : p.stockCount < (qty : Int)) :
    generateBill db now adminId [⟨pid, qty⟩] dueDate tax discount extraNotes actor =
      (.error (.insufficientStock p.name p.stockCount qty), db) := by
  have hpi := processItems_cons_short admin actor db ⟨pid, qty⟩ p [] hp hq
  exact generateBill_err_eq db db now adminId admin [⟨pid, qty⟩] _ actor dueDate tax
    discount extraNotes hA hrole hpi

/-- Witness for C2: requesting 5 units of the out-of-stock product fails with
    InsufficientStock and the store is untouched (spec scenario: stock 0,
    requested 5). -/
theorem generateBill_single_line_insufficient_witness :
    findUser dbInit 1 = some adminAda ∧ adminAda.role = .admin ∧
    findProduct dbInit 2 = some frameEmpty ∧
    frameEmpty.stockCount < ((5 : Nat) : Int) ∧
    generateBill dbInit 100 1 [⟨2, 5⟩] 7 0 0 none 0 =
      (.error (.insufficientStock frameEmpty.name frameEmpty.stockCount 5), dbInit) :=
  ⟨rfl, rfl, rfl, by decide,
    generateBill_single_line_insufficient dbInit 100 1 2 5 7 0 0 none 0 adminAda
      frameEmpty rfl rfl rfl (by decide)⟩

/-! ### Claim C7: bill number format and no overwriting -/

/-- Claim C7: at bill persistence the pre-save hook assigns exactly
    `BILL-<millisecond-epoch-timestamp>-<count-of-previously-persisted-bills + 1>`
    when the bill has no number, and never overwrites an existing number;
    `saveBill` feeds the hook the count of previously persisted bills. -/
theorem billNumber_format_on_save (now : Nat) (db : DB) (b : Bill) :
    (b.billNumber = none →
      (assignBillNumber now db.bills.length b).billNumber =
        some ("BILL-" ++ Nat.repr now ++ "-" ++ Nat.repr (db.bills.length + 1))) ∧
    (∀ s, b.billNumber = some s →
      (assignBillNumber now db.bills.length b).billNumber = some s) ∧
    (saveBill now db b).bills = db.bills ++ [assignBillNumber now db.bills.length b] := by
  refine ⟨?_, ?_, rfl⟩
  · intro hb
    rw [assignBillNumber_billNumber_of_none hb]
    rfl
  · intro s hb
    rw [assignBillNumber_some hb]
    exact hb

/-- Witness for C7: persisting a fresh bill into a store holding one bill at
    time 12345 yields the number `BILL-12345-2`, and an already-numbered bill
    keeps its number. -/
theorem billNumber_format_on_save_witness :
    (billFresh.billNumber = none →
      (assignBillNumber 12345 dbPaid.bills.length billFresh).billNumber =
        some ("BILL-" ++ Nat.repr 12345 ++ "-" ++ Nat.repr (dbPaid.bills.length + 1))) ∧
    (∀ s, billFresh.billNumber = some s →
      (assignBillNumber 12345 dbPaid.bills.length billFresh).billNumber = some s) ∧
    (saveBill 12345 dbPaid billFresh).bills =
      dbPaid.bills ++ [assignBillNumber 12345 dbPaid.bills.length billFresh] :=
  billNumber_format_on_save 12345 dbPaid billFresh

/-! ### Claim C10: the inStock flag always matches the stock count after a
    save -/

/-- Claim C10: after any operation of the core, every product record now in
    the store either was already there unchanged, or went through the product
    pre-save hook and so carries `inStock = (stockCount > 0)`; the flag can
    never disagree with the stock count on a freshly saved product. -/
theorem inStock_matches_stockCount (db : DB) (op : Op) (p : Product)
    (hp : p ∈ (step db op).products) :
    p ∈ db.products ∨ p.inStock = decide (0 < p.stockCount) := by
  cases op with
  | addStock pid q r ref n a =>
    rcases hf : findProduct db pid with _ | product
    · rw [step] at hp
      simp [addStock, hf] at hp
      exact .inl hp
    · rw [step] at hp
      simp only [addStock, hf] at hp
      rcases mem_putProduct hp with rfl | hmem
      · exact .inr rfl
      · exact .inl hmem
  | removeStock pid q r ref n a =>
    rcases hf : findProduct db pid with _ | product
    · rw [step] at hp
      simp [removeStock, hf] at hp
      exact .inl hp
    · rw [step] at hp
      simp only [removeStock, hf] at hp
      rcases mem_putProduct hp with rfl | hmem
      · exact .inr rfl
      · exact .inl hmem
  | adjustStock pid q r ref n a =>
    rcases hf : findProduct db pid with _ | product
    · rw [step] at hp
      simp [adjustStock, hf] at hp
      exact .inl hp
    · rw [step] at hp
      simp only [adjustStock, hf] at hp
      rcases mem_putProduct hp with rfl | hmem
      · exact .inr rfl
      · exact .inl hmem
  | generateBill now aid its due tax disc n a =>
    rw [step] at hp
    rcases hA : findUser db aid with _ | admin
    · rw [generateBill_noUser db now aid its due tax disc n a hA] at hp
      exact .inl hp
    · by_cases hrole : admin.role = .admin
      · rcases hpi : processItems admin a db its with ⟨res, db1⟩
        have hprod := (processItems_state admin a its db).2.2.1
        rcases res with e | ⟨lines, subtotal⟩
        · rw [generateBill_err_eq db db1 now aid admin its e a due tax disc n hA hrole hpi] at hp
          have : p ∈ (processItems admin a db its).2.products := by rw [hpi]; exact hp
          exact hprod p this
        · rw [generateBill_ok_eq db db1 now aid admin its lines subtotal a due tax disc n
            hA hrole hpi] at hp
          have : p ∈ (processItems admin a db its).2.products := by rw [hpi]; exact hp
          exact hprod p this
      · rw [generateBill_badRole db now aid admin its due tax disc n a hA hrole] at hp
        exact .inl hp
  | updateBillStatus bid s now =>
    rcases hb : findBill db bid with _ | bill
    · rw [step] at hp
      simp [updateBillStatus, hb] at hp
      exact .inl hp
    · rw [step] at hp
      simp only [updateBillStatus, hb, putBill] at hp
      exact .inl hp

/-- Witness for C10: after adding 3 units to the product holding 5, the
    updated record is a fresh save, so the disjunction is satisfied. -/
theorem inStock_matches_stockCount_witness :
    saveProduct { lens5 with stockCount := lens5.stockCount + ((3 : Nat) : Int) } ∈
      (step dbInit (.addStock 1 3 "restock" none none 0)).products ∧
    (saveProduct { lens5 with stockCount := lens5.stockCount + ((3 : Nat) : Int) } ∈
        dbInit.products ∨
      (saveProduct { lens5 with stockCount := lens5.stockCount + ((3 : Nat) : Int) }).inStock =
        decide (0 < (saveProduct { lens5 with stockCount :=
          lens5.stockCount + ((3 : Nat) : Int) }).stockCount)) :=
  ⟨by decide,
    inStock_matches_stockCount dbInit (.addStock 1 3 "restock" none none 0) _ (by decide)⟩

/-! ### txOk introduction helpers -/

theorem txOk_of_IN {tx : StockTransaction} (ht : tx.type = .IN)
    (h1 : tx.newStock = tx.previousStock + tx.quantity)
    (h2 : 0 ≤ tx.previousStock) (h3 : 0 ≤ tx.newStock) : txOk tx := by
  unfold txOk
  refine ⟨fun _ => h1, ?_, ?_, h2, h3⟩
  · intro hco
    rw [ht] at hco
    exact absurd hco (by decide)
  · intro hco
    rw [ht] at hco
    exact absurd hco (by decide)

theorem txOk_of_OUT {tx : StockTransaction} (ht : tx.type = .OUT)
    (h1 : tx.newStock = max 0 (tx.previousStock - tx.quantity))
    (h2 : 0 ≤ tx.previousStock) (h3 : 0 ≤ tx.newStock) : txOk tx := by
  unfold txOk
  refine ⟨?_, fun _ => h1, ?_, h2, h3⟩
  · intro hco
    rw [ht] at hco
    exact absurd hco (by decide)
  · intro hco
    rw [ht] at hco
    exact absurd hco (by decide)

theorem txOk_of_ADJUSTMENT {tx : StockTransaction} (ht : tx.type = .ADJUSTMENT)
    (h1 : tx.quantity = |tx.newStock - tx.previousStock|)
    (h2 : 0 ≤ tx.previousStock) (h3 : 0 ≤ tx.newStock) : txOk tx := by
  unfold txOk
  refine ⟨?_, ?_, fun _ => h1, h2, h3⟩
  · intro hco
    rw [ht] at hco
    exact absurd hco (by decide)
  · intro hco
    rw [ht] at hco
    exact absurd hco (by decide)

/-! ### Claim C3 (amended): the bookkeeping relation of every appended
    transaction -/

/-- Claim C3 (amended): every transaction an operation appends satisfies
    `newStock = previousStock + quantity` for IN,
    `newStock = max 0 (previousStock - quantity)` for OUT (so the delta is
    `-quantity` exactly when the quantity did not exceed the stock),
    `quantity = |newStock - previousStock|` for ADJUSTMENT, and both stock
    snapshots are non-negative. -/
theorem stockTransaction_bookkeeping (db : DB) (op : Op)
    (hwf : wfStocks db) (hv : op.validated) :
    ∀ tx ∈ (step db op).transactions, tx ∈ db.transactions ∨ txOk tx := by
  cases op with
  | addStock pid q r ref n a =>
    intro tx htx
    rcases hf : findProduct db pid with _ | product
    · rw [step] at htx
      simp [addStock, hf] at htx
      exact .inl htx
    · rw [step] at htx
      simp only [addStock, hf, putProduct] at htx
      rcases List.mem_append.1 htx with h | h
      · exact .inl h
      · have hs : 0 ≤ product.stockCount := hwf product (findProduct_mem hf)
        rcases List.mem_singleton.1 h with rfl
        exact .inr (txOk_of_IN rfl rfl hs (by show 0 ≤ product.stockCount + (q : Int); omega))
  | removeStock pid q r ref n a =>
    intro tx htx
    rcases hf : findProduct db pid with _ | product
    · rw [step] at htx
      simp [removeStock, hf] at htx
      exact .inl htx
    · rw [step] at htx
      simp only [removeStock, hf, putProduct] at htx
      rcases List.mem_append.1 htx with h | h
      · exact .inl h
      · have hs : 0 ≤ product.stockCount := hwf product (findProduct_mem hf)
        rcases List.mem_singleton.1 h with rfl
        exact .inr (txOk_of_OUT rfl rfl hs (le_max_left 0 _))
  | adjustStock pid q r ref n a =>
    intro tx htx
    rcases hf : findProduct db pid with _ | product
    · rw [step] at htx
      simp [adjustStock, hf] at htx
      exact .inl htx
    · rw [step] at htx
      simp only [adjustStock, hf, putProduct] at htx
      rcases List.mem_append.1 htx with h | h
      · exact .inl h
      · have hs : 0 ≤ product.stockCount := hwf product (findProduct_mem hf)
        rcases List.mem_singleton.1 h with rfl
        exact .inr (txOk_of_ADJUSTMENT rfl rfl hs (by show (0 : Int) ≤ (q : Int); omega))
  | generateBill now aid its due tax disc n a =>
    intro tx htx
    rw [step] at htx
    rcases hA : findUser db aid with _ | admin
    · rw [generateBill_noUser db now aid its due tax disc n a hA] at htx
      exact .inl htx
    · by_cases hrole : admin.role = .admin
      · rcases hpi : processItems admin a db its with ⟨res, db1⟩
        have hstate := (processItems_state admin a its db).2.2.2.2 hwf
        rcases res with e | ⟨lines, subtotal⟩
        · rw [generateBill_err_eq db db1 now aid admin its e a due tax disc n hA hrole hpi] at htx
          have : tx ∈ (processItems admin a db its).2.transactions := by
            rw [hpi]; exact htx
          exact hstate tx this
        · rw [generateBill_ok_eq db db1 now aid admin its lines subtotal a due tax disc n
            hA hrole hpi] at htx
          have : tx ∈ (processItems admin a db its).2.transactions := by
            rw [hpi]; exact htx
          exact hstate tx this
      · rw [generateBill_badRole db now aid admin its due tax disc n a hA hrole] at htx
        exact .inl htx
  | updateBillStatus bid s now =>
    intro tx htx
    rcases hb : findBill db bid with _ | bill
    · rw [step] at htx
      simp [updateBillStatus, hb] at htx
      exact .inl htx
    · rw [step] at htx
      simp only [updateBillStatus, hb, putBill] at htx
      exact .inl htx

/-- Witness for C3 (amended): a clamped removal of 7 units from a stock of 5
    appends a transaction satisfying the bookkeeping relation. -/
theorem stockTransaction_bookkeeping_witness :
    wfStocks dbInit ∧ Op.validated (.removeStock 1 7 "shrinkage" none none 0) ∧
    ∀ tx ∈ (step dbInit (.removeStock 1 7 "shrinkage" none none 0)).transactions,
      tx ∈ dbInit.transactions ∨ txOk tx :=
  ⟨by show ∀ p ∈ dbInit.products, 0 ≤ p.stockCount; decide,
   by show (1 : Nat) ≤ 7; decide,
   stockTransaction_bookkeeping dbInit (.removeStock 1 7 "shrinkage" none none 0)
     (by show ∀ p ∈ dbInit.products, 0 ≤ p.stockCount; decide) (by show (1 : Nat) ≤ 7; decide)⟩

/-- Counterexample to C3 as stated: when the requested quantity exceeds the
    stock, remove-stock records the requested quantity but clamps the new
    stock at zero, so `newStock - previousStock = -quantity` fails. -/
theorem removeStock_clamped_transaction_cex :
    (removeStock dbInit 1 7 "shrinkage" none none 0).2.transactions =
      [{ product := 1, type := .OUT, quantity := 7, previousStock := 5, newStock := 0
         reason := "shrinkage", reference := none, notes := none, performedBy := 0 }] ∧
    ¬ ((0 : Int) - 5 = -7) :=
  ⟨rfl, by decide⟩

/-! ### Claim C1 (amended): failure scope of bill generation -/

/-- Claim C1 (amended): in bill generation the availability check of a line
    runs before that line's own debit, and on any validation failure no Bill
    is persisted; but the check-debit cycle is per line, so only a request
    whose first line fails is guaranteed to leave the store completely
    unchanged — debits of earlier successful lines persist (see the
    counterexample). -/
theorem generateBill_failure_scope (db : DB) (now adminId : Nat)
    (items : List ReqItem) (dueDate : Nat) (tax discount : ℚ)
    (extraNotes : Option String) (actor : Nat) :
    (∀ e db2, generateBill db now adminId items dueDate tax discount extraNotes actor =
        (.error e, db2) → db2.bills = db.bills) ∧
    (∀ item rest, items = item :: rest →
      (∀ p, findProduct db item.product = some p → p.stockCount < (item.quantity : Int)) →
      ∃ e, generateBill db now adminId items dueDate tax discount extraNotes actor =
        (.error e, db)) := by
  constructor
  · intro e db2 h
    rcases hA : findUser db adminId with _ | admin
    · rw [generateBill_noUser db now adminId items dueDate tax discount extraNotes actor hA] at h
      simp only [Prod.mk.injEq] at h
      rw [← h.2]
    · by_cases hrole : admin.role = .admin
      · rcases hpi : processItems admin actor db items with ⟨res, db1⟩
        rcases res with e1 | ⟨lines, subtotal⟩
        · rw [generateBill_err_eq db db1 now adminId admin items e1 actor dueDate tax
            discount extraNotes hA hrole hpi] at h
          simp only [Prod.mk.injEq] at h
          rw [← h.2]
          have hbills := (processItems_state admin actor items db).2.1
          rw [hpi] at hbills
          exact hbills
        · rw [generateBill_ok_eq db db1 now adminId admin items lines subtotal actor dueDate
            tax discount extraNotes hA hrole hpi] at h
          simp at h
      · rw [generateBill_badRole db now adminId admin items dueDate tax discount
          extraNotes actor hA hrole] at h
        simp only [Prod.mk.injEq] at h
        rw [← h.2]
  · rintro item rest rfl hfail
    rcases hA : findUser db adminId with _ | admin
    · exact ⟨.adminNotFound,
        generateBill_noUser db now adminId (item :: rest) dueDate tax discount
          extraNotes actor hA⟩
    · by_cases hrole : admin.role = .admin
      · rcases hf : findProduct db item.product with _ | p
        · have hpi := processItems_cons_notFound admin actor db item rest hf
          exact ⟨.productNotFound item.product,
            generateBill_err_eq db db now adminId admin (item :: rest) _ actor dueDate tax
              discount extraNotes hA hrole hpi⟩
        · have hlt := hfail p hf
          have hpi := processItems_cons_short admin actor db item p rest hf hlt
          exact ⟨.insufficientStock p.name p.stockCount item.quantity,
            generateBill_err_eq db db now adminId admin (item :: rest) _ actor dueDate tax
              discount extraNotes hA hrole hpi⟩
      · exact ⟨.adminNotFound,
          generateBill_badRole db now adminId admin (item :: rest) dueDate tax discount
            extraNotes actor hA hrole⟩

/-- Witness for C1 (amended): a request whose first (and only) line exceeds
    the stock leaves the store untouched, and an error never appends a
    bill. -/
theorem generateBill_failure_scope_witness :
    ([⟨2, 5⟩] = (⟨2, 5⟩ : ReqItem) :: ([] : List ReqItem)) ∧
    (∀ p, findProduct dbInit 2 = some p → p.stockCount < ((5 : Nat) : Int)) ∧
    (∃ e, generateBill dbInit 100 1 [⟨2, 5⟩] 7 0 0 none 0 = (.error e, dbInit)) := by
  refine ⟨rfl, ?_, ?_⟩
  · intro p hp
    have : p = frameEmpty := Option.some.inj (by rw [← hp]; rfl)
    rw [this]
    decide
  · refine (generateBill_failure_scope dbInit 100 1 [⟨2, 5⟩] 7 0 0 none 0).2 ⟨2, 5⟩ [] rfl ?_
    intro p hp
    have : p = frameEmpty := Option.some.inj (by rw [← hp]; rfl)
    rw [this]
    decide

/-- Counterexample to C1 as stated: a two-line request whose second line
    fails still debits the first line's product (stock 5 → 4) and appends its
    OUT transaction; only the bill itself is withheld. -/
theorem generateBill_partial_debit_cex :
    (generateBill dbInit 100 1 [⟨1, 1⟩, ⟨2, 1⟩] 7 0 0 none 0).1 =
      .error (.insufficientStock "P2" 0 1) ∧
    lens5.stockCount = 5 ∧
    ((generateBill dbInit 100 1 [⟨1, 1⟩, ⟨2, 1⟩] 7 0 0 none 0).2.products.map
      (fun p => (p.id, p.stockCount))) = [(1, 4), (2, 0)] ∧
    (generateBill dbInit 100 1 [⟨1, 1⟩, ⟨2, 1⟩] 7 0 0 none 0).2.transactions.length = 1 ∧
    (generateBill dbInit 100 1 [⟨1, 1⟩, ⟨2, 1⟩] 7 0 0 none 0).2.bills = [] :=
  ⟨rfl, rfl, rfl, rfl, rfl⟩

/-! ### Claim C6: stock counts never go negative -/

theorem step_wf {db : DB} {op : Op} (hwf : wfStocks db) (hop : op.isStockOp) :
    wfStocks (step db op) := by
  cases op with
  | addStock pid q r ref n a =>
    intro p hp
    rcases hf : findProduct db pid with _ | product
    · rw [step] at hp
      simp [addStock, hf] at hp
      exact hwf p hp
    · rw [step] at hp
      simp only [addStock, hf] at hp
      rcases mem_putProduct hp with rfl | hmem
      · have hs : 0 ≤ product.stockCount := hwf product (findProduct_mem hf)
        show (0 : Int) ≤ product.stockCount + (q : Int)
        omega
      · exact hwf p hmem
  | removeStock pid q r ref n a =>
    intro p hp
    rcases hf : findProduct db pid with _ | product
    · rw [step] at hp
      simp [removeStock, hf] at hp
      exact hwf p hp
    · rw [step] at hp
      simp only [removeStock, hf] at hp
      rcases mem_putProduct hp with rfl | hmem
      · exact le_max_left 0 _
      · exact hwf p hmem
  | adjustStock pid q r ref n a =>
    intro p hp
    rcases hf : findProduct db pid with _ | product
    · rw [step] at hp
      simp [adjustStock, hf] at hp
      exact hwf p hp
    · rw [step] at hp
      simp only [adjustStock, hf] at hp
      rcases mem_putProduct hp with rfl | hmem
      · show (0 : Int) ≤ (q : Int)
        omega
      · exact hwf p hmem
  | generateBill now aid its due tax disc n a => exact False.elim hop
  | updateBillStatus bid s now => exact False.elim hop

theorem run_wf : ∀ (ops : List Op) (db : DB), wfStocks db →
    (∀ op ∈ ops, op.isStockOp) → wfStocks (run db ops)
  | [], _, hwf, _ => hwf
  | op :: rest, db, hwf, hops =>
    run_wf rest (step db op) (step_wf hwf (hops op (List.mem_cons_self op rest)))
      (fun o ho => hops o (List.mem_cons_of_mem op ho))

/-- Claim C6: starting from a store whose stock counts are all non-negative,
    any sequence of validated Increase/Decrease/Adjust operations keeps every
    product's stock count non-negative. -/
theorem stockCount_nonneg_invariant (db : DB) (ops : List Op) (hwf : wfStocks db)
    (hops : ∀ op ∈ ops, op.isStockOp ∧ op.validated) : wfStocks (run db ops) :=
  run_wf ops db hwf (fun o ho => (hops o ho).1)

/-- The operation sequence exercising the C6 witness: add 3, remove 9
    (clamping), adjust to 4. -/
def opsInvWitness : List Op :=
  [.addStock 1 3 "restock" none none 0, .removeStock 1 9 "shrinkage" none none 0,
   .adjustStock 2 4 "stocktake" none none 0]

/-- Witness for C6 on a concrete sequence of the three ledger operations. -/
theorem stockCount_nonneg_invariant_witness :
    wfStocks dbInit ∧ (∀ op ∈ opsInvWitness, op.isStockOp ∧ op.validated) ∧
    wfStocks (run dbInit opsInvWitness) := by
  have hwf : wfStocks dbInit := by
    show ∀ p ∈ dbInit.products, 0 ≤ p.stockCount
    decide
  have hops : ∀ op ∈ opsInvWitness, op.isStockOp ∧ op.validated := by
    intro op hop
    fin_cases hop
    · exact ⟨trivial, by show (1 : Nat) ≤ 3; decide⟩
    · exact ⟨trivial, by show (1 : Nat) ≤ 9; decide⟩
    · exact ⟨trivial, trivial⟩
  exact ⟨hwf, hops, stockCount_nonneg_invariant dbInit opsInvWitness hwf hops⟩

/-! ### Claim C4: bill arithmetic -/

/-- Claim C4: every bill produced by a successful GenerateBill has
    `line.totalPrice = line.quantity × line.unitPrice` with the unit price
    snapshotted from the product as it stood in the store the request
    started from, `subtotal = Σ line.totalPrice`, and
    `total = subtotal + tax - discount`. -/
theorem bill_pricing_correct (db : DB) (now adminId : Nat) (items : List ReqItem)
    (dueDate : Nat) (tax discount : ℚ) (extraNotes : Option String) (actor : Nat)
    (b : Bill) (db2 : DB)
    (h : generateBill db now adminId items dueDate tax discount extraNotes actor =
      (.ok b, db2)) :
    (∀ line ∈ b.items,
      line.totalPrice = line.unitPrice * (line.quantity : ℚ) ∧
      ∃ p, findProduct db line.product = some p ∧ line.unitPrice = p.price) ∧
    b.subtotal = (b.items.map BillLine.totalPrice).sum ∧
    b.tax = tax ∧ b.discount = discount ∧
    b.total = b.subtotal + b.tax - b.discount := by
  rcases hA : findUser db adminId with _ | admin
  · rw [generateBill_noUser db now adminId items dueDate tax discount extraNotes actor hA] at h
    simp at h
  · by_cases hrole : admin.role = .admin
    · rcases hpi : processItems admin actor db items with ⟨res, db1⟩
      rcases res with e | ⟨lines, subtotal⟩
      · rw [generateBill_err_eq db db1 now adminId admin items e actor dueDate tax discount
          extraNotes hA hrole hpi] at h
        simp at h
      · rw [generateBill_ok_eq db db1 now adminId admin items lines subtotal actor dueDate
          tax discount extraNotes hA hrole hpi] at h
        simp only [Prod.mk.injEq, Except.ok.injEq] at h
        obtain ⟨hb, hdb⟩ := h
        subst hb
        obtain ⟨hlines, hsub⟩ :=
          processItems_ok_spec admin actor items db lines subtotal db1 hpi
        refine ⟨?_, ?_, ?_, ?_, ?_⟩
        · rw [assignBillNumber_items]
          exact fun line hl => hlines line hl
        · rw [assignBillNumber_subtotal, assignBillNumber_items]
          exact hsub
        · rw [assignBillNumber_tax]
          rfl
        · rw [assignBillNumber_discount]
          rfl
        · rw [assignBillNumber_total, assignBillNumber_subtotal, assignBillNumber_tax,
            assignBillNumber_discount]
          rfl
    · rw [generateBill_badRole db now adminId admin items dueDate tax discount extraNotes
        actor hA hrole] at h
      simp at h

/-- Witness for C4: the spec's scenario — 3 units of the price-10 product —
    yields a bill satisfying all the pricing equations. -/
theorem bill_pricing_correct_witness :
    ∃ b db2, generateBill dbInit 100 1 [⟨1, 3⟩] 7 0 0 none 0 = (.ok b, db2) ∧
      ((∀ line ∈ b.items,
        line.totalPrice = line.unitPrice * (line.quantity : ℚ) ∧
        ∃ p, findProduct dbInit line.product = some p ∧ line.unitPrice = p.price) ∧
      b.subtotal = (b.items.map BillLine.totalPrice).sum ∧
      b.tax = 0 ∧ b.discount = 0 ∧
      b.total = b.subtotal + b.tax - b.discount) :=
  ⟨_, _, rfl, bill_pricing_correct dbInit 100 1 [⟨1, 3⟩] 7 0 0 none 0 _ _ rfl⟩

/-! ### Claim C8 (amended): bill status transitions -/

/-- Claim C8 (amended): a bill's status is changed only by the explicit
    status-update operation, and that operation overwrites the status with
    whichever of the four enum values is requested, regardless of the current
    status — transitions out of PAID, OVERDUE or CANCELLED are possible (see
    the counterexample). Ledger operations never touch bills, and bill
    generation only appends a new bill whose status is PENDING; nothing
    recomputes a status from the due date. -/
theorem billStatus_update_behavior :
    (∀ (db : DB) (billId : Nat) (status : BillStatus) (now : Nat) (bill : Bill),
      findBill db billId = some bill →
      updateBillStatus db billId status now =
        (.ok (assignBillNumber now db.bills.length { bill with status := status }),
         putBill db (assignBillNumber now db.bills.length { bill with status := status })) ∧
      (assignBillNumber now db.bills.length { bill with status := status }).status = status) ∧
    (∀ (db : DB) (op : Op), op.isStockOp → (step db op).bills = db.bills) ∧
    (∀ (db : DB) (now adminId : Nat) (items : List ReqItem) (dueDate : Nat)
      (tax discount : ℚ) (extraNotes : Option String) (actor : Nat) (b : Bill) (db2 : DB),
      generateBill db now adminId items dueDate tax discount extraNotes actor =
        (.ok b, db2) →
      db2.bills = db.bills ++ [b] ∧ b.status = .PENDING) := by
  refine ⟨?_, ?_, ?_⟩
  · intro db billId status now bill hfind
    constructor
    · simp [updateBillStatus, hfind]
    · rw [assignBillNumber_status]
  · intro db op hop
    cases op with
    | addStock pid q r ref n a =>
      rcases hf : findProduct db pid with _ | product
      · rw [step]; simp [addStock, hf]
      · rw [step]; simp [addStock, hf, putProduct]
    | removeStock pid q r ref n a =>
      rcases hf : findProduct db pid with _ | product
      · rw [step]; simp [removeStock, hf]
      · rw [step]; simp [removeStock, hf, putProduct]
    | adjustStock pid q r ref n a =>
      rcases hf : findProduct db pid with _ | product
      · rw [step]; simp [adjustStock, hf]
      · rw [step]; simp [adjustStock, hf, putProduct]
    | generateBill now aid its due tax disc n a => exact False.elim hop
    | updateBillStatus bid s now => exact False.elim hop
  · intro db now adminId items dueDate tax discount extraNotes actor b db2 h
    rcases hA : findUser db adminId with _ | admin
    · rw [generateBill_noUser db now adminId items dueDate tax discount extraNotes actor hA] at h
      simp at h
    · by_cases hrole : admin.role = .admin
      · rcases hpi : processItems admin actor db items with ⟨res, db1⟩
        rcases res with e | ⟨lines, subtotal⟩
        · rw [generateBill_err_eq db db1 now adminId admin items e actor dueDate tax discount
            extraNotes hA hrole hpi] at h
          simp at h
        · rw [generateBill_ok_eq db db1 now adminId admin items lines subtotal actor dueDate
            tax discount extraNotes hA hrole hpi] at h
          simp only [Prod.mk.injEq, Except.ok.injEq] at h
          obtain ⟨hb, hdb⟩ := h
          subst hb
          subst hdb
          have hbills := (processItems_state admin actor items db).2.1
          rw [hpi] at hbills
          constructor
          · show db1.bills ++ _ = db.bills ++ _
            rw [hbills]
          · rw [assignBillNumber_status]
            rfl
      · rw [generateBill_badRole db now adminId admin items dueDate tax discount extraNotes
          actor hA hrole] at h
        simp at h

/-- Witness for C8 (amended): updating the PAID bill to PENDING succeeds and
    sets exactly the requested status. -/
theorem billStatus_update_behavior_witness :
    findBill dbPaid 0 = some billPaid ∧
    (updateBillStatus dbPaid 0 .PENDING 200 =
      (.ok (assignBillNumber 200 dbPaid.bills.length { billPaid with status := .PENDING }),
       putBill dbPaid
         (assignBillNumber 200 dbPaid.bills.length { billPaid with status := .PENDING })) ∧
     (assignBillNumber 200 dbPaid.bills.length
        { billPaid with status := .PENDING }).status = .PENDING) :=
  ⟨rfl, billStatus_update_behavior.1 dbPaid 0 .PENDING 200 billPaid rfl⟩

/-- Counterexample to C8 as stated: the status-update handler happily moves a
    PAID bill back to PENDING — a transition out of PAID that the claim says
    can never occur. -/
theorem billStatus_paid_to_pending_cex :
    billPaid.status = .PAID ∧
    ((updateBillStatus dbPaid 0 .PENDING 200).2.bills.map Bill.status) = [.PENDING] :=
  ⟨rfl, rfl⟩

/-! ### Decimal rendering: `Nat.repr` is injective and contains no dash.
    These facts let us compare rendered bill numbers. -/

/-- The numeric value of a decimal digit character. -/
def digitVal (c : Char) : Nat := c.toNat - 48

/-- The number denoted by a list of decimal digit characters. -/
def digitsVal (l : List Char) : Nat := l.foldl (fun a c => 10 * a + digitVal c) 0

theorem digitsVal_foldl_shift (l : List Char) : ∀ a : Nat,
    l.foldl (fun a c => 10 * a + digitVal c) a = a * 10 ^ l.length + digitsVal l := by
  induction l with
  | nil => intro a; simp [digitsVal]
  | cons c l ih =>
    intro a
    rw [List.foldl_cons]
    rw [ih (10 * a + digitVal c)]
    have h2 : digitsVal (c :: l) = digitVal c * 10 ^ l.length + digitsVal l := by
      show l.foldl _ (10 * 0 + digitVal c) = _
      rw [ih (10 * 0 + digitVal c)]
      ring
    rw [h2, List.length_cons]
    ring

theorem digitChar_digitVal {m : Nat} (h : m < 10) : digitVal (Nat.digitChar m) = m := by
  interval_cases m <;> decide

theorem digitChar_isDigit {m : Nat} (h : m < 10) : (Nat.digitChar m).isDigit = true := by
  interval_cases m <;> decide

theorem toDigitsCore_succ_eq (fuel n : Nat) (ds : List Char) :
    Nat.toDigitsCore 10 (fuel + 1) n ds =
      if n / 10 = 0 then Nat.digitChar (n % 10) :: ds
      else Nat.toDigitsCore 10 fuel (n / 10) (Nat.digitChar (n % 10) :: ds) := by
  conv_lhs => rw [Nat.toDigitsCore]

theorem toDigitsCore_digitsVal : ∀ (fuel n : Nat) (ds : List Char), n < 10 ^ fuel →
    digitsVal (Nat.toDigitsCore 10 fuel n ds) = n * 10 ^ ds.length + digitsVal ds := by
  intro fuel
  induction fuel with
  | zero =>
    intro n ds h
    interval_cases n
    simp [Nat.toDigitsCore]
  | succ fuel ih =>
    intro n ds h
    rw [toDigitsCore_succ_eq]
    have hmod : n % 10 < 10 := Nat.mod_lt n (by norm_num)
    have hdv : digitsVal (Nat.digitChar (n % 10) :: ds) =
        (n % 10) * 10 ^ ds.length + digitsVal ds := by
      show ds.foldl _ (10 * 0 + digitVal (Nat.digitChar (n % 10))) = _
      rw [digitsVal_foldl_shift, digitChar_digitVal hmod]
      ring
    by_cases h10 : n / 10 = 0
    · rw [if_pos h10]
      have hn : n < 10 := by omega
      rw [hdv, Nat.mod_eq_of_lt hn]
    · rw [if_neg h10]
      have hlt : n / 10 < 10 ^ fuel :=
        (Nat.div_lt_iff_lt_mul (by norm_num)).2 (by rw [← pow_succ]; exact h)
      rw [ih (n / 10) (Nat.digitChar (n % 10) :: ds) hlt, hdv, List.length_cons]
      have hnd : 10 * (n / 10) + n % 10 = n := Nat.div_add_mod n 10
      conv_rhs => rw [← hnd]
      ring

theorem repr_digitsVal (n : Nat) : digitsVal (Nat.repr n).data = n := by
  have h1 : n < 10 ^ (n + 1) :=
    lt_of_lt_of_le (Nat.lt_pow_self (by norm_num) n)
      (Nat.pow_le_pow_right (by norm_num) (Nat.le_succ n))
  show digitsVal (Nat.toDigitsCore 10 (n + 1) n []) = n
  rw [toDigitsCore_digitsVal (n + 1) n [] h1]
  simp [digitsVal]

theorem toDigitsCore_chars : ∀ (fuel n : Nat) (ds : List Char) (c : Char),
    c ∈ Nat.toDigitsCore 10 fuel n ds → c ∈ ds ∨ c.isDigit = true := by
  intro fuel
  induction fuel with
  | zero =>
    intro n ds c hc
    left
    simpa [Nat.toDigitsCore] using hc
  | succ fuel ih =>
    intro n ds c hc
    rw [toDigitsCore_succ_eq] at hc
    have hmod : n % 10 < 10 := Nat.mod_lt n (by norm_num)
    by_cases h10 : n / 10 = 0
    · rw [if_pos h10] at hc
      rcases List.mem_cons.1 hc with rfl | h
      · exact .inr (digitChar_isDigit hmod)
      · exact .inl h
    · rw [if_neg h10] at hc
      rcases ih (n / 10) (Nat.digitChar (n % 10) :: ds) c hc with h | h
      · rcases List.mem_cons.1 h with rfl | h2
        · exact .inr (digitChar_isDigit hmod)
        · exact .inl h2
      · exact .inr h

theorem repr_no_dash (n : Nat) : ('-' : Char) ∉ (Nat.repr n).data := by
  intro h
  have h2 : ('-' : Char) ∈ Nat.toDigitsCore 10 (n + 1) n [] := h
  rcases toDigitsCore_chars (n + 1) n [] '-' h2 with h3 | h3
  · exact absurd h3 (List.not_mem_nil _)
  · exact absurd h3 (by decide)

theorem append_dash_inj : ∀ (a b c d : List Char),
    ('-' : Char) ∉ a → ('-' : Char) ∉ c →
    a ++ '-' :: b = c ++ '-' :: d → a = c ∧ b = d := by
  intro a
  induction a with
  | nil =>
    intro b c d _ hc h
    cases c with
    | nil =>
      refine ⟨rfl, ?_⟩
      simpa using h
    | cons x c2 =>
      simp only [List.nil_append, List.cons_append, List.cons.injEq] at h
      have hmem : ('-' : Char) ∈ x :: c2 := by
        rw [h.1]
        exact List.mem_cons_self x c2
      exact absurd hmem hc
  | cons y a2 ih =>
    intro b c d ha hc h
    cases c with
    | nil =>
      simp only [List.nil_append, List.cons_append, List.cons.injEq] at h
      have hmem : ('-' : Char) ∈ y :: a2 := by
        rw [← h.1]
        exact List.mem_cons_self y a2
      exact absurd hmem ha
    | cons x c2 =>
      simp only [List.cons_append, List.cons.injEq] at h
      have ha2 : ('-' : Char) ∉ a2 := fun hm => ha (List.mem_cons_of_mem y hm)
      have hc2 : ('-' : Char) ∉ c2 := fun hm => hc (List.mem_cons_of_mem x hm)
      obtain ⟨h1, h2⟩ := ih b c2 d ha2 hc2 h.2
      exact ⟨by rw [h.1, h1], h2⟩

/-- Two rendered bill numbers with different sequence components are
    different strings: the count component is recoverable from the string. -/
theorem billNumberString_inj_count {t1 c1 t2 c2 : Nat}
    (h : billNumberString t1 c1 = billNumberString t2 c2) : c1 = c2 := by
  unfold billNumberString at h
  have hd := congrArg String.data h
  simp only [String.data_append] at hd
  simp only [List.cons_append, List.nil_append, List.append_assoc, List.singleton_append,
    List.cons.injEq, true_and] at hd
  obtain ⟨-, h2⟩ :=
    append_dash_inj (Nat.repr t1).data (Nat.repr (c1 + 1)).data
      (Nat.repr t2).data (Nat.repr (c2 + 1)).data
      (repr_no_dash t1) (repr_no_dash t2) hd
  have h3 := congrArg digitsVal h2
  rw [repr_digitsVal (c1 + 1), repr_digitsVal (c2 + 1)] at h3
  omega

/-! ### Claim C9: bill number uniqueness -/

/-- The GenerateBill operations, the calls C9 quantifies over. -/
def Op.isGenBill : Op → Prop
  | .generateBill _ _ _ _ _ _ _ _ => True
  | _ => False

theorem composeBill_billNumber (count adminId : Nat) (processedItems : List BillLine)
    (subtotal tax discount : ℚ) (dueDate : Nat) (notes : Option String) (actor : Nat) :
    (composeBill count adminId processedItems subtotal tax discount dueDate notes
      actor).billNumber = none := rfl

/-- One GenerateBill call either leaves the bill list alone (a validation
    failure) or appends exactly one bill whose number was rendered at the
    current bill count. -/
theorem genStep_bills (db : DB) (op : Op) (hop : op.isGenBill) :
    (step db op).bills = db.bills ∨
    ∃ saved, (step db op).bills = db.bills ++ [saved] ∧
      ∃ t, saved.billNumber = some (billNumberString t db.bills.length) := by
  cases op with
  | addStock pid q r ref n a => exact False.elim hop
  | removeStock pid q r ref n a => exact False.elim hop
  | adjustStock pid q r ref n a => exact False.elim hop
  | updateBillStatus bid s now => exact False.elim hop
  | generateBill now aid its due tax disc n a =>
    rcases hA : findUser db aid with _ | admin
    · rw [step, generateBill_noUser db now aid its due tax disc n a hA]
      exact .inl rfl
    · by_cases hrole : admin.role = .admin
      · rcases hpi : processItems admin a db its with ⟨res, db1⟩
        have hbills := (processItems_state admin a its db).2.1
        rw [hpi] at hbills
        rcases res with e | ⟨lines, subtotal⟩
        · rw [step, generateBill_err_eq db db1 now aid admin its e a due tax disc n hA
            hrole hpi]
          exact .inl hbills
        · rw [step, generateBill_ok_eq db db1 now aid admin its lines subtotal a due tax
            disc n hA hrole hpi]
          refine .inr ⟨assignBillNumber now db1.bills.length
            (composeBill db1.bills.length aid lines subtotal tax disc due n a), ?_, now, ?_⟩
          · show db1.bills ++ _ = db.bills ++ _
            rw [hbills]
          · rw [assignBillNumber_billNumber_of_none (composeBill_billNumber db1.bills.length
              aid lines subtotal tax disc due n a) now db1.bills.length, hbills]
      · rw [step, generateBill_badRole db now aid admin its due tax disc n a hA hrole]
        exact .inl rfl

/-- Serialized GenerateBill calls append bills whose numbers carry strictly
    increasing sequence components, hence are pairwise distinct. -/
theorem run_gen_bills : ∀ (ops : List Op) (db : DB), (∀ op ∈ ops, op.isGenBill) →
    ∃ tail, (run db ops).bills = db.bills ++ tail ∧
      (∀ b2 ∈ tail, ∃ t c, db.bills.length ≤ c ∧
        b2.billNumber = some (billNumberString t c)) ∧
      tail.Pairwise (fun b1 b2 => b1.billNumber ≠ b2.billNumber) := by
  intro ops
  induction ops with
  | nil =>
    intro db _
    exact ⟨[], by simp [run], by simp, List.Pairwise.nil⟩
  | cons op rest ih =>
    intro db hops
    have hop := hops op (List.mem_cons_self op rest)
    obtain ⟨tail, h1, h2, h3⟩ := ih (step db op) (fun o ho => hops o (List.mem_cons_of_mem op ho))
    rcases genStep_bills db op hop with heq | ⟨saved, heq, t, hsaved⟩
    · refine ⟨tail, ?_, ?_, h3⟩
      · show (run (step db op) rest).bills = _
        rw [h1, heq]
      · intro b2 hb2
        obtain ⟨t2, c2, hc2, hn2⟩ := h2 b2 hb2
        rw [heq] at hc2
        exact ⟨t2, c2, hc2, hn2⟩
    · refine ⟨saved :: tail, ?_, ?_, ?_⟩
      · show (run (step db op) rest).bills = _
        rw [h1, heq, List.append_assoc]
        rfl
      · intro b2 hb2
        rcases List.mem_cons.1 hb2 with rfl | hb2
        · exact ⟨t, db.bills.length, le_refl _, hsaved⟩
        · obtain ⟨t2, c2, hc2, hn2⟩ := h2 b2 hb2
          rw [heq] at hc2
          simp only [List.length_append, List.length_singleton] at hc2
          exact ⟨t2, c2, by omega, hn2⟩
      · rw [List.pairwise_cons]
        refine ⟨?_, h3⟩
        intro b2 hb2
        obtain ⟨t2, c2, hc2, hn2⟩ := h2 b2 hb2
        rw [heq] at hc2
        simp only [List.length_append, List.length_singleton] at hc2
        intro hcontra
        rw [hsaved, hn2] at hcontra
        have := billNumberString_inj_count (Option.some.inj hcontra)
        omega

/-- Claim C9 (amended): the bill numbers of the bills appended by any
    sequence of GenerateBill calls executed serially (each call's save
    completing before the next call reads the bill count) are pairwise
    unique; under concurrent interleaving two saves can read the same count
    and timestamp and emit the same number (see the counterexample). -/
theorem billNumbers_sequential_unique (db : DB) (ops : List Op)
    (hops : ∀ op ∈ ops, op.isGenBill) :
    ((run db ops).bills.drop db.bills.length).Pairwise
      (fun b1 b2 => b1.billNumber ≠ b2.billNumber) := by
  obtain ⟨tail, h1, _, h3⟩ := run_gen_bills ops db hops
  rw [h1, List.drop_left]
  exact h3

/-- The two serialized GenerateBill calls exercising the C9 witness. -/
def opsGenWitness : List Op :=
  [.generateBill 100 1 [⟨1, 1⟩] 7 0 0 none 0, .generateBill 100 1 [⟨1, 2⟩] 7 0 0 none 0]

/-- Witness for C9 (amended): two serialized GenerateBill calls in the same
    millisecond produce bills with distinct numbers. -/
theorem billNumbers_sequential_unique_witness :
    (∀ op ∈ opsGenWitness, op.isGenBill) ∧
    ((run dbInit opsGenWitness).bills.drop dbInit.bills.length).Pairwise
      (fun b1 b2 => b1.billNumber ≠ b2.billNumber) := by
  have h : ∀ op ∈ opsGenWitness, Op.isGenBill op := by
    intro op hop
    fin_cases hop <;> exact trivial
  exact ⟨h, billNumbers_sequential_unique dbInit opsGenWitness h⟩

/-- Counterexample to C9 as stated: two concurrent saves that both read the
    bill count before either insert completes, in the same millisecond,
    produce the identical number `BILL-100-1` — bill numbers of concurrent
    GenerateBill calls are not pairwise unique. -/
theorem billNumbers_concurrent_duplicate_cex :
    ((concurrentSaves dbInit 100 100 billFresh billFresh2).bills.map Bill.billNumber) =
      [some "BILL-100-1", some "BILL-100-1"] ∧
    ¬ ((concurrentSaves dbInit 100 100 billFresh billFresh2).bills.map
        Bill.billNumber).Pairwise (· ≠ ·) :=
  ⟨rfl, by decide⟩
